import Mathlib

/-!
Shallow embedding of `src/Core/Src/ILI9341_Touchscreen.c` (ILI9341 touchscreen
driver, bit-banged SPI).  The GPIO world is modelled as a state carrying the
latched values of the three output lines (CLK, MOSI, CS) together with two
input streams (MISO data-in and IRQ press-line), each consumed by an index
that advances on every `HAL_GPIO_ReadPin` call.  `clkHighs` counts the writes
of a high level to the clock line (one per bit-banging loop iteration), so
that iteration counts of the loops are observable.

Machine integers are embedded as `Nat` with explicit reduction `% 65536`
(uint16_t) and `% 4294967296` (uint32_t) exactly where the C types force a
wraparound.  The calibration macros from the missing header
(`NO_OF_POSITION_SAMPLES`, `X_TRANSLATION`, ..., `CMD_RDX`, `CMD_RDY`) are
opaque configuration per the spec, modelled as fields of `Config`.
-/

/-- The observable state of the driver's GPIO world: output-pin latches,
a count of high writes to the clock line, and the two input streams with
their read positions. -/
structure TPState where
  clk : Bool
  mosi : Bool
  cs : Bool
  clkHighs : Nat
  misoSeq : Nat → Bool
  misoIdx : Nat
  irqSeq : Nat → Bool
  irqIdx : Nat

/-- `HAL_GPIO_WritePin` on the clock line (counts writes of a high level). -/
def wCLK (b : Bool) (s : TPState) : TPState :=
  { s with clk := b, clkHighs := if b then s.clkHighs + 1 else s.clkHighs }

/-- `HAL_GPIO_WritePin` on the MOSI (data-out) line. -/
def wMOSI (b : Bool) (s : TPState) : TPState := { s with mosi := b }

/-- `HAL_GPIO_WritePin` on the chip-select line. -/
def wCS (b : Bool) (s : TPState) : TPState := { s with cs := b }

/-- `HAL_GPIO_ReadPin` on the MISO (data-in) line: yields the next value of
the input stream (`true` = high). -/
def readMISO (s : TPState) : Bool × TPState :=
  (s.misoSeq s.misoIdx, { s with misoIdx := s.misoIdx + 1 })

/-- `HAL_GPIO_ReadPin` on the IRQ (press) line (`true` = high; a press is
signalled by logic low, i.e. `false`). -/
def readIRQ (s : TPState) : Bool × TPState :=
  (s.irqSeq s.irqIdx, { s with irqIdx := s.irqIdx + 1 })

/-- The `while (i > 0)` loop of `TP_Read`: shift the accumulator left
(uint16 wraparound), pulse the clock high then low, sample MISO and set the
low bit if it reads high. -/
def TP_Read_loop : Nat → Nat → TPState → Nat × TPState
  | 0, value, s => (value, s)
  | i + 1, value, s =>
    let value := (value <<< 1) % 65536
    let s := wCLK true s
    let s := wCLK false s
    let p := readMISO s
    let value := if p.1 then value + 1 else value
    TP_Read_loop i value p.2

/-- `TP_Read` from the source: receives one 16-bit value MSB first over
16 clocked iterations. -/
def TP_Read (s : TPState) : Nat × TPState :=
  TP_Read_loop 16 0 s

/-- The `while (i > 0)` loop of `TP_Write`: drive MOSI to bit 7 of the
value, shift the value left (uint8 wraparound), pulse the clock. -/
def TP_Write_loop : Nat → Nat → TPState → TPState
  | 0, _, s => s
  | i + 1, value, s =>
    let s := wMOSI (value &&& 128 != 0) s
    let value := (value <<< 1) % 256
    let s := wCLK true s
    let s := wCLK false s
    TP_Write_loop i value s

/-- `TP_Write` from the source: forces the clock low, then transmits the
8-bit command MSB first. -/
def TP_Write (value : Nat) (s : TPState) : TPState :=
  TP_Write_loop 8 value (wCLK false s)

/-- The configuration macros of the missing header, opaque per the spec
(nonnegative integer constants fitting their C types). -/
structure Config where
  NO_OF_POSITION_SAMPLES : Nat
  X_TRANSLATION : Nat
  Y_TRANSLATION : Nat
  X_OFFSET : Nat
  Y_OFFSET : Nat
  X_MAGNITUDE : Nat
  Y_MAGNITUDE : Nat
  CMD_RDX : Nat
  CMD_RDY : Nat

/-- The stack locals of `TP_Read_Coordinates`: `avg_x`/`avg_y`,
`calculating_x`/`calculating_y` and `counted_samples` are uint32_t,
`rawx`/`rawy` uint16_t. -/
structure RCLocals where
  avg_x : Nat
  avg_y : Nat
  rawx : Nat
  rawy : Nat
  calculating_x : Nat
  calculating_y : Nat
  counted_samples : Nat
deriving DecidableEq

/-- The sampling loop of `TP_Read_Coordinates`:
`while ((samples > 0) && (ReadPin(IRQ) == 0))`, each iteration issuing
`CMD_RDY` / `CMD_RDX` and accumulating the two 16-bit responses into the
uint32 accumulators, counting completed samples. -/
def TP_RC_loop (cRDY cRDX : Nat) : Nat → RCLocals → TPState → RCLocals × TPState
  | 0, l, s => (l, s)
  | samples + 1, l, s =>
    let p := readIRQ s
    if p.1 then (l, p.2)
    else
      let s := TP_Write cRDY p.2
      let q := TP_Read s
      let l := { l with rawy := q.1,
                        avg_y := (l.avg_y + q.1) % 4294967296,
                        calculating_y := (l.calculating_y + q.1) % 4294967296 }
      let s := TP_Write cRDX q.2
      let r := TP_Read s
      let l := { l with rawx := r.1,
                        avg_x := (l.avg_x + r.1) % 4294967296,
                        calculating_x := (l.calculating_x + r.1) % 4294967296 }
      let l := { l with counted_samples := (l.counted_samples + 1) % 4294967296 }
      TP_RC_loop cRDY cRDX samples l r.2

/-- The pin preamble of `TP_Read_Coordinates`: CLK, MOSI, CS driven high,
then CS driven low to open the transaction. -/
def TP_RC_prep (s : TPState) : TPState :=
  wCS false (wCS true (wMOSI true (wCLK true s)))

/-- All locals of `TP_Read_Coordinates` start at zero. -/
def initRCLocals : RCLocals := ⟨0, 0, 0, 0, 0, 0, 0⟩

/-- State and locals right after the sampling loop of
`TP_Read_Coordinates` exits. -/
def TP_RC_afterLoop (cfg : Config) (s : TPState) : RCLocals × TPState :=
  TP_RC_loop cfg.CMD_RDY cfg.CMD_RDX cfg.NO_OF_POSITION_SAMPLES initRCLocals
    (TP_RC_prep s)

/-- `Coordinates[0] = ((240 - (rawx / X_TRANSLATION)) - X_OFFSET) * X_MAGNITUDE`
from the source: int arithmetic, stored into a uint16_t slot. -/
def TP_transform_x (cfg : Config) (v : Nat) : Nat :=
  ((((240 : Int) - (v / cfg.X_TRANSLATION : Nat)) - cfg.X_OFFSET)
      * cfg.X_MAGNITUDE % 65536).toNat

/-- `Coordinates[1] = ((rawy / Y_TRANSLATION) - Y_OFFSET) * Y_MAGNITUDE`
from the source: int arithmetic, stored into a uint16_t slot. -/
def TP_transform_y (cfg : Config) (v : Nat) : Nat :=
  ((((v / cfg.Y_TRANSLATION : Nat) : Int) - cfg.Y_OFFSET)
      * cfg.Y_MAGNITUDE % 65536).toNat

/-- `rawx = calculating_x; rawx *= -1;` from the source: the uint32 average
is truncated into a uint16_t and then multiplied by `-1` with uint16
wraparound (int promotion, then conversion back to uint16_t). -/
def TP_negate16 (a : Nat) : Nat :=
  (((-1 : Int) * ((a % 65536 : Nat) : Int)) % 65536).toNat

/-- Return status of `TP_Read_Coordinates`: `TOUCHPAD_DATA_OK` /
`TOUCHPAD_DATA_NOISY` from the missing header, modelled abstractly. -/
inductive TPStatus where
  | ok
  | noisy
deriving DecidableEq

/-- `TP_Read_Coordinates` from the source.  Result: the written
`Coordinates` pair, the returned status, and the final GPIO state. -/
def TP_Read_Coordinates (cfg : Config) (s : TPState) :
    (Nat × Nat) × TPStatus × TPState :=
  let p := TP_RC_afterLoop cfg s
  let l := p.1
  let s1 := wCS true p.2
  if l.counted_samples = cfg.NO_OF_POSITION_SAMPLES then
    let q := readIRQ s1
    if q.1 then ((0, 0), TPStatus.noisy, q.2)
    else
      let rawx := TP_negate16 (l.calculating_x / l.counted_samples)
      let rawy := TP_negate16 (l.calculating_y / l.counted_samples)
      ((TP_transform_x cfg rawx, TP_transform_y cfg rawy), TPStatus.ok, q.2)
  else ((0, 0), TPStatus.noisy, s1)

/-- `TOUCHPAD_PRESSED` (value 1, from the source's doc comment). -/
def TOUCHPAD_PRESSED : Nat := 1

/-- `TOUCHPAD_NOT_PRESSED` (value 0, from the source's doc comment). -/
def TOUCHPAD_NOT_PRESSED : Nat := 0

/-- `TP_Touchpad_Pressed` from the source: one IRQ-line read, pressed iff
it reads logic low. -/
def TP_Touchpad_Pressed (s : TPState) : Nat × TPState :=
  let p := readIRQ s
  if p.1 = false then (TOUCHPAD_PRESSED, p.2) else (TOUCHPAD_NOT_PRESSED, p.2)

/-- The 16-bit word assembled MSB-first from `i` consecutive stream bits
starting at position `start`. -/
def streamWord (f : Nat → Bool) : Nat → Nat → Nat
  | _, 0 => 0
  | start, i + 1 => (if f start then 2 ^ i else 0) + streamWord f (start + 1) i

/-- A simulated controller that answers every `CMD_RDY` read with the 16
bits of `Ry` and every `CMD_RDX` read with the 16 bits of `Rx`, MSB first
(reads alternate Y, X per sample). -/
def constStream (Rx Ry : Nat) : Nat → Bool := fun i =>
  (if (i / 16) % 2 = 0 then Ry else Rx).testBit (15 - i % 16)

/-- A fresh GPIO state over the given input streams. -/
def mkState (miso irq : Nat → Bool) : TPState :=
  ⟨false, false, false, 0, miso, 0, irq, 0⟩

/-- A simulated controller for the truncation test: the first Y response
reads 100, the second reads 101, both X responses read 0. -/
def misoC6 : Nat → Bool := fun i =>
  if i < 16 then Nat.testBit 100 (15 - i)
  else if 32 ≤ i ∧ i < 48 then Nat.testBit 101 (15 - (i - 32))
  else false

/-- Value of the MOSI latch after transmitting the low `i` bits of `v`
(the last bit driven out by `TP_Write_loop i v`). -/
def TP_Write_lastMosi : Nat → Nat → Bool
  | 0, _ => true
  | 1, v => v &&& 128 != 0
  | i + 2, v => TP_Write_lastMosi (i + 1) ((v <<< 1) % 256)

/-- GPIO state after one completed iteration of the sampling loop:
48 clock pulses (8+16 per command/response pair), 32 MISO bits and one IRQ
read consumed; CS untouched; MOSI holds the last bit of `CMD_RDX`. -/
def TP_RC_nextState (cx : Nat) (s : TPState) : TPState :=
  { clk := false, mosi := TP_Write_lastMosi 8 cx, cs := s.cs,
    clkHighs := s.clkHighs + 48, misoSeq := s.misoSeq,
    misoIdx := s.misoIdx + 32, irqSeq := s.irqSeq, irqIdx := s.irqIdx + 1 }

/-- Locals after one completed iteration of the sampling loop: the Y word is
read first (at the current MISO position), then the X word. -/
def TP_RC_nextLocals (l : RCLocals) (s : TPState) : RCLocals :=
  { avg_x := (l.avg_x + streamWord s.misoSeq (s.misoIdx + 16) 16) % 4294967296,
    avg_y := (l.avg_y + streamWord s.misoSeq s.misoIdx 16) % 4294967296,
    rawx := streamWord s.misoSeq (s.misoIdx + 16) 16,
    rawy := streamWord s.misoSeq s.misoIdx 16,
    calculating_x := (l.calculating_x + streamWord s.misoSeq (s.misoIdx + 16) 16) % 4294967296,
    calculating_y := (l.calculating_y + streamWord s.misoSeq s.misoIdx 16) % 4294967296,
    counted_samples := (l.counted_samples + 1) % 4294967296 }

theorem TPState_eq_iff {s t : TPState} :
    s = t ↔ s.clk = t.clk ∧ s.mosi = t.mosi ∧ s.cs = t.cs ∧
      s.clkHighs = t.clkHighs ∧ s.misoSeq = t.misoSeq ∧ s.misoIdx = t.misoIdx ∧
      s.irqSeq = t.irqSeq ∧ s.irqIdx = t.irqIdx := by
  constructor
  · intro h; subst h; exact ⟨rfl, rfl, rfl, rfl, rfl, rfl, rfl, rfl⟩
  · rintro ⟨h1, h2, h3, h4, h5, h6, h7, h8⟩
    cases s; cases t; simp_all

theorem RCLocals_eq_iff {l l' : RCLocals} :
    l = l' ↔ l.avg_x = l'.avg_x ∧ l.avg_y = l'.avg_y ∧ l.rawx = l'.rawx ∧
      l.rawy = l'.rawy ∧ l.calculating_x = l'.calculating_x ∧
      l.calculating_y = l'.calculating_y ∧
      l.counted_samples = l'.counted_samples := by
  constructor
  · intro h; subst h; exact ⟨rfl, rfl, rfl, rfl, rfl, rfl, rfl⟩
  · rintro ⟨h1, h2, h3, h4, h5, h6, h7⟩
    cases l; cases l'; simp_all

theorem TP_Read_loop_eq : ∀ (i v : Nat) (s : TPState), i ≤ 16 → v < 2 ^ (16 - i) →
    TP_Read_loop i v s =
      (v * 2 ^ i + streamWord s.misoSeq s.misoIdx i,
       { s with clk := if i = 0 then s.clk else false,
                clkHighs := s.clkHighs + i,
                misoIdx := s.misoIdx + i }) := by
  intro i
  induction i with
  | zero =>
    intro v s _ _
    simp [TP_Read_loop, streamWord]
  | succ i ih =>
    intro v s hle hv
    have h15 : (2:Nat) ^ (16 - (i + 1)) ≤ 2 ^ 15 :=
      Nat.pow_le_pow_right (by norm_num) (by omega)
    have h15' : (2:Nat) ^ 15 = 32768 := by norm_num
    have hv2 : (v <<< 1) % 65536 = 2 * v := by
      rw [Nat.shiftLeft_eq]
      have h2 : v * 2 ^ 1 = 2 * v := by ring
      rw [h2]
      exact Nat.mod_eq_of_lt (by omega)
    have hpow : (2:Nat) ^ (16 - i) = 2 * 2 ^ (16 - (i + 1)) := by
      have h : 16 - i = (16 - (i + 1)) + 1 := by omega
      rw [h, pow_succ]; ring
    have hval : (if s.misoSeq s.misoIdx then 2 * v + 1 else 2 * v) < 2 ^ (16 - i) := by
      by_cases hb : s.misoSeq s.misoIdx <;> simp [hb] <;> omega
    simp only [TP_Read_loop, wCLK, readMISO, hv2, if_true]
    rw [ih _ _ (by omega) hval]
    rw [Prod.mk.injEq]
    constructor
    · rw [streamWord]
      by_cases hb : s.misoSeq s.misoIdx <;> simp [hb, pow_succ] <;> ring
    · rw [TPState_eq_iff]
      simp
      omega

theorem TP_Read_eq (s : TPState) :
    TP_Read s = (streamWord s.misoSeq s.misoIdx 16,
      { s with clk := false, clkHighs := s.clkHighs + 16,
               misoIdx := s.misoIdx + 16 }) := by
  have h := TP_Read_loop_eq 16 0 s (le_refl 16) (by norm_num)
  simpa [TP_Read] using h

theorem streamWord_lt (f : Nat → Bool) : ∀ (i start : Nat), streamWord f start i < 2 ^ i := by
  intro i
  induction i with
  | zero => intro start; simp [streamWord]
  | succ i ih =>
    intro start
    have h := ih (start + 1)
    have hp : (2:Nat) ^ (i + 1) = 2 ^ i * 2 := pow_succ 2 i
    by_cases hb : f start <;> simp [streamWord, hb] <;> omega

theorem streamWord_eq_of_testBit : ∀ (i v start : Nat) (f : Nat → Bool), v < 2 ^ i →
    (∀ j, j < i → f (start + j) = v.testBit (i - 1 - j)) →
    streamWord f start i = v := by
  intro i
  induction i with
  | zero =>
    intro v start f hv _
    interval_cases v
    simp [streamWord]
  | succ i ih =>
    intro v start f hv h
    have hb : f start = v.testBit i := by
      have h0 := h 0 (by omega)
      simpa using h0
    have hrest : ∀ j, j < i → f (start + 1 + j) = (v % 2 ^ i).testBit (i - 1 - j) := by
      intro j hj
      have hj1 := h (j + 1) (by omega)
      rw [show start + (j + 1) = start + 1 + j by ring] at hj1
      rw [hj1, Nat.testBit_mod_two_pow]
      have he : i + 1 - 1 - (j + 1) = i - 1 - j := by omega
      rw [he]
      have hlt : i - 1 - j < i := by omega
      simp [hlt]
    have ihv := ih (v % 2 ^ i) (start + 1) f (Nat.mod_lt _ (Nat.two_pow_pos i)) hrest
    simp only [streamWord, ihv, hb]
    rcases Nat.lt_or_ge v (2 ^ i) with hlt | hge
    · rw [Nat.testBit_lt_two_pow hlt]
      simp [Nat.mod_eq_of_lt hlt]
    · have hdiv : v / 2 ^ i = 1 := by
        have hsucc : (2:Nat) ^ (i + 1) = 2 ^ i * 2 := pow_succ 2 i
        have h4 : v / 2 ^ i < 2 :=
          (Nat.div_lt_iff_lt_mul (Nat.two_pow_pos i)).2 (by omega)
        have h5 : 1 ≤ v / 2 ^ i :=
          (Nat.le_div_iff_mul_le (Nat.two_pow_pos i)).2 (by omega)
        omega
      have hbit : v.testBit i = true := by
        rw [Nat.testBit_to_div_mod]
        simp [hdiv]
      rw [hbit]
      have h1 := Nat.div_add_mod v (2 ^ i)
      rw [hdiv] at h1
      simp only [if_true]
      omega

theorem constStream_wordY (Rx Ry start : Nat) (hRy : Ry < 65536)
    (hs : start % 32 = 0) :
    streamWord (constStream Rx Ry) start 16 = Ry := by
  apply streamWord_eq_of_testBit 16 Ry start _ (by norm_num; omega)
  intro j hj
  have h1 : (start + j) / 16 % 2 = 0 := by omega
  have h2 : (start + j) % 16 = j := by omega
  simp [constStream, h1, h2]

theorem constStream_wordX (Rx Ry start : Nat) (hRx : Rx < 65536)
    (hs : start % 32 = 16) :
    streamWord (constStream Rx Ry) start 16 = Rx := by
  apply streamWord_eq_of_testBit 16 Rx start _ (by norm_num; omega)
  intro j hj
  have h1 : ¬((start + j) / 16 % 2 = 0) := by omega
  have h2 : (start + j) % 16 = j := by omega
  simp [constStream, h1, h2]

theorem TP_Write_loop_eq : ∀ (i v : Nat) (s : TPState),
    TP_Write_loop (i + 1) v s =
      { s with clk := false, mosi := TP_Write_lastMosi (i + 1) v,
               clkHighs := s.clkHighs + (i + 1) } := by
  intro i
  induction i with
  | zero =>
    intro v s
    simp [TP_Write_loop, TP_Write_lastMosi, wMOSI, wCLK]
  | succ i ih =>
    intro v s
    show TP_Write_loop (i + 1 + 1) v s = _
    conv_lhs => rw [TP_Write_loop]
    simp only [wMOSI, wCLK, if_true]
    rw [ih]
    simp [TPState_eq_iff, TP_Write_lastMosi]
    omega

theorem TP_Write_eq (v : Nat) (s : TPState) :
    TP_Write v s = { s with clk := false, mosi := TP_Write_lastMosi 8 v,
                            clkHighs := s.clkHighs + 8 } := by
  show TP_Write_loop 8 v (wCLK false s) = _
  rw [show (8:Nat) = 7 + 1 from rfl, TP_Write_loop_eq]
  simp [wCLK, TPState_eq_iff]

theorem TP_RC_loop_zero (cy cx : Nat) (l : RCLocals) (s : TPState) :
    TP_RC_loop cy cx 0 l s = (l, s) := rfl

theorem TP_RC_loop_exit (cy cx k : Nat) (l : RCLocals) (s : TPState)
    (hb : s.irqSeq s.irqIdx = true) :
    TP_RC_loop cy cx (k + 1) l s = (l, { s with irqIdx := s.irqIdx + 1 }) := by
  rw [TP_RC_loop]
  simp [readIRQ, hb]

theorem TP_RC_loop_succ_step (cy cx k : Nat) (l : RCLocals) (s : TPState)
    (hb : s.irqSeq s.irqIdx = false) :
    TP_RC_loop cy cx (k + 1) l s =
      TP_RC_loop cy cx k (TP_RC_nextLocals l s) (TP_RC_nextState cx s) := by
  rw [TP_RC_loop]
  simp only [readIRQ, hb, Bool.false_eq_true, if_false]
  simp [TP_Write_eq, TP_Read_eq, TP_RC_nextLocals, TP_RC_nextState]

theorem TP_RC_prep_eq (s : TPState) :
    TP_RC_prep s = { s with clk := true, mosi := true, cs := false,
                            clkHighs := s.clkHighs + 1 } := by
  simp [TP_RC_prep, wCS, wMOSI, wCLK, TPState_eq_iff]

theorem TP_RC_loop_advance (cy cx : Nat) : ∀ (k : Nat) (l : RCLocals) (s : TPState),
    ∃ j jr, j ≤ k ∧ jr ≤ k ∧
      ((TP_RC_loop cy cx k l s).2).misoSeq = s.misoSeq ∧
      ((TP_RC_loop cy cx k l s).2).irqSeq = s.irqSeq ∧
      ((TP_RC_loop cy cx k l s).2).misoIdx = s.misoIdx + 32 * j ∧
      ((TP_RC_loop cy cx k l s).2).irqIdx = s.irqIdx + jr := by
  intro k
  induction k with
  | zero =>
    intro l s
    refine ⟨0, 0, le_refl 0, le_refl 0, ?_, ?_, ?_, ?_⟩ <;>
      simp [TP_RC_loop_zero]
  | succ k ih =>
    intro l s
    by_cases hb : s.irqSeq s.irqIdx
    · refine ⟨0, 1, by omega, by omega, ?_, ?_, ?_, ?_⟩ <;>
        simp [TP_RC_loop_exit cy cx k l s hb]
    · have hb0 : s.irqSeq s.irqIdx = false := by simpa using hb
      rw [TP_RC_loop_succ_step cy cx k l s hb0]
      obtain ⟨j, jr, hj, hjr, h1, h2, h3, h4⟩ :=
        ih (TP_RC_nextLocals l s) (TP_RC_nextState cx s)
      refine ⟨j + 1, jr + 1, by omega, by omega, ?_, ?_, ?_, ?_⟩
      · rw [h1]; simp [TP_RC_nextState]
      · rw [h2]; simp [TP_RC_nextState]
      · rw [h3]; simp [TP_RC_nextState]; omega
      · rw [h4]; simp [TP_RC_nextState]; omega

theorem TP_RC_loop_counted (cy cx : Nat) : ∀ (k : Nat) (l : RCLocals) (s : TPState),
    l.counted_samples + k < 4294967296 →
    (TP_RC_loop cy cx k l s).1.counted_samples ≤ l.counted_samples + k := by
  intro k
  induction k with
  | zero =>
    intro l s _
    simp [TP_RC_loop_zero]
  | succ k ih =>
    intro l s hk
    by_cases hb : s.irqSeq s.irqIdx
    · rw [TP_RC_loop_exit cy cx k l s hb]
      exact Nat.le_add_right _ _
    · have hb0 : s.irqSeq s.irqIdx = false := by simpa using hb
      rw [TP_RC_loop_succ_step cy cx k l s hb0]
      have hc : (TP_RC_nextLocals l s).counted_samples = l.counted_samples + 1 := by
        simp [TP_RC_nextLocals]; omega
      have h := ih (TP_RC_nextLocals l s) (TP_RC_nextState cx s) (by rw [hc]; omega)
      rw [hc] at h
      omega

theorem TP_RC_loop_calc_bound (cy cx : Nat) : ∀ (k : Nat) (l : RCLocals) (s : TPState),
    l.counted_samples + k < 4294967296 →
    (l.counted_samples < 65536 →
      l.calculating_x ≤ l.counted_samples * 65535 ∧
      l.calculating_y ≤ l.counted_samples * 65535) →
    l.calculating_x < 4294967296 →
    l.calculating_y < 4294967296 →
    (((TP_RC_loop cy cx k l s).1.counted_samples < 65536 →
        (TP_RC_loop cy cx k l s).1.calculating_x ≤
          (TP_RC_loop cy cx k l s).1.counted_samples * 65535 ∧
        (TP_RC_loop cy cx k l s).1.calculating_y ≤
          (TP_RC_loop cy cx k l s).1.counted_samples * 65535) ∧
      (TP_RC_loop cy cx k l s).1.calculating_x < 4294967296 ∧
      (TP_RC_loop cy cx k l s).1.calculating_y < 4294967296) := by
  intro k
  induction k with
  | zero =>
    intro l s _ hinv hx hy
    simpa [TP_RC_loop_zero] using ⟨hinv, hx, hy⟩
  | succ k ih =>
    intro l s hk hinv hx hy
    by_cases hb : s.irqSeq s.irqIdx
    · rw [TP_RC_loop_exit cy cx k l s hb]
      exact ⟨hinv, hx, hy⟩
    · have hb0 : s.irqSeq s.irqIdx = false := by simpa using hb
      rw [TP_RC_loop_succ_step cy cx k l s hb0]
      have hwX : streamWord s.misoSeq (s.misoIdx + 16) 16 < 65536 := by
        have h := streamWord_lt s.misoSeq 16 (s.misoIdx + 16)
        norm_num at h
        exact h
      have hwY : streamWord s.misoSeq s.misoIdx 16 < 65536 := by
        have h := streamWord_lt s.misoSeq 16 s.misoIdx
        norm_num at h
        exact h
      refine ih _ _ ?_ ?_ ?_ ?_
      · simp [TP_RC_nextLocals]; omega
      · intro hlt
        simp [TP_RC_nextLocals] at hlt ⊢
        have hiv := hinv (by omega)
        omega
      · simp [TP_RC_nextLocals]; omega
      · simp [TP_RC_nextLocals]; omega

theorem TP_RC_loop_const (cy cx Rx Ry : Nat) (hRx : Rx < 65536) (hRy : Ry < 65536) :
    ∀ (k : Nat) (l : RCLocals) (s : TPState),
      s.misoSeq = constStream Rx Ry →
      s.irqSeq = (fun _ => false) →
      s.misoIdx % 32 = 0 →
      l.avg_x < 4294967296 → l.avg_y < 4294967296 →
      l.calculating_x < 4294967296 → l.calculating_y < 4294967296 →
      l.counted_samples < 4294967296 →
      (TP_RC_loop cy cx k l s).1 =
        { avg_x := (l.avg_x + k * Rx) % 4294967296,
          avg_y := (l.avg_y + k * Ry) % 4294967296,
          rawx := if k = 0 then l.rawx else Rx,
          rawy := if k = 0 then l.rawy else Ry,
          calculating_x := (l.calculating_x + k * Rx) % 4294967296,
          calculating_y := (l.calculating_y + k * Ry) % 4294967296,
          counted_samples := (l.counted_samples + k) % 4294967296 } := by
  intro k
  induction k with
  | zero =>
    intro l s hm hi hidx ha hb hcx hcy hc
    rw [TP_RC_loop_zero, RCLocals_eq_iff]
    refine ⟨?_, ?_, ?_, ?_, ?_, ?_, ?_⟩ <;> simp <;> omega
  | succ k ih =>
    intro l s hm hi hidx ha hb hcx hcy hc
    have hb0 : s.irqSeq s.irqIdx = false := by rw [hi]
    rw [TP_RC_loop_succ_step cy cx k l s hb0]
    have hY : streamWord s.misoSeq s.misoIdx 16 = Ry := by
      rw [hm]; exact constStream_wordY Rx Ry s.misoIdx hRy hidx
    have hX : streamWord s.misoSeq (s.misoIdx + 16) 16 = Rx := by
      rw [hm]; exact constStream_wordX Rx Ry (s.misoIdx + 16) hRx (by omega)
    refine Eq.trans (ih _ _ ?_ ?_ ?_ ?_ ?_ ?_ ?_ ?_) ?_
    · simp [TP_RC_nextState, hm]
    · simp [TP_RC_nextState, hi]
    · simp [TP_RC_nextState]; omega
    · simp [TP_RC_nextLocals]; omega
    · simp [TP_RC_nextLocals]; omega
    · simp [TP_RC_nextLocals]; omega
    · simp [TP_RC_nextLocals]; omega
    · simp [TP_RC_nextLocals]; omega
    · rw [RCLocals_eq_iff]
      refine ⟨?_, ?_, ?_, ?_, ?_, ?_, ?_⟩ <;>
        simp [TP_RC_nextLocals, hX, hY, add_one_mul] <;> omega

theorem streamWord_congr (f g : Nat → Bool) : ∀ (i a b : Nat),
    (∀ j, j < i → f (a + j) = g (b + j)) →
    streamWord f a i = streamWord g b i := by
  intro i
  induction i with
  | zero => intro a b _; rfl
  | succ i ih =>
    intro a b h
    have h0 := h 0 (by omega)
    simp only [Nat.add_zero] at h0
    simp only [streamWord, h0]
    congr 1
    apply ih
    intro j hj
    have hjq := h (j + 1) (by omega)
    rw [show a + (j + 1) = a + 1 + j by omega,
        show b + (j + 1) = b + 1 + j by omega] at hjq
    exact hjq

theorem TP_RC_loop_congr (cy cx : Nat) : ∀ (k : Nat) (l : RCLocals) (s t : TPState),
    (∀ i, s.misoSeq (s.misoIdx + i) = t.misoSeq (t.misoIdx + i)) →
    (∀ i, s.irqSeq (s.irqIdx + i) = t.irqSeq (t.irqIdx + i)) →
    (TP_RC_loop cy cx k l s).1 = (TP_RC_loop cy cx k l t).1 ∧
    ((TP_RC_loop cy cx k l s).2).irqSeq (((TP_RC_loop cy cx k l s).2).irqIdx) =
      ((TP_RC_loop cy cx k l t).2).irqSeq (((TP_RC_loop cy cx k l t).2).irqIdx) := by
  intro k
  induction k with
  | zero =>
    intro l s t hm hi
    refine ⟨rfl, ?_⟩
    have h0 := hi 0
    simpa using h0
  | succ k ih =>
    intro l s t hm hi
    have hq : s.irqSeq s.irqIdx = t.irqSeq t.irqIdx := by
      have h0 := hi 0
      simpa using h0
    by_cases hb : s.irqSeq s.irqIdx
    · have hbt : t.irqSeq t.irqIdx = true := by rw [← hq]; exact hb
      rw [TP_RC_loop_exit cy cx k l s hb, TP_RC_loop_exit cy cx k l t hbt]
      refine ⟨rfl, ?_⟩
      have h1 := hi 1
      simpa using h1
    · have hb0 : s.irqSeq s.irqIdx = false := by simpa using hb
      have hbt : t.irqSeq t.irqIdx = false := by rw [← hq]; exact hb0
      rw [TP_RC_loop_succ_step cy cx k l s hb0, TP_RC_loop_succ_step cy cx k l t hbt]
      have wY : streamWord s.misoSeq s.misoIdx 16 = streamWord t.misoSeq t.misoIdx 16 :=
        streamWord_congr s.misoSeq t.misoSeq 16 s.misoIdx t.misoIdx (fun j _ => hm j)
      have wX : streamWord s.misoSeq (s.misoIdx + 16) 16 =
          streamWord t.misoSeq (t.misoIdx + 16) 16 := by
        apply streamWord_congr
        intro j _
        have hh := hm (16 + j)
        rw [show s.misoIdx + (16 + j) = s.misoIdx + 16 + j by omega,
            show t.misoIdx + (16 + j) = t.misoIdx + 16 + j by omega] at hh
        exact hh
      have hL : TP_RC_nextLocals l s = TP_RC_nextLocals l t := by
        simp [TP_RC_nextLocals, wY, wX]
      rw [hL]
      apply ih
      · intro i
        simp only [TP_RC_nextState]
        have hh := hm (32 + i)
        rw [show s.misoIdx + (32 + i) = s.misoIdx + 32 + i by omega,
            show t.misoIdx + (32 + i) = t.misoIdx + 32 + i by omega] at hh
        exact hh
      · intro i
        simp only [TP_RC_nextState]
        have hh := hi (1 + i)
        rw [show s.irqIdx + (1 + i) = s.irqIdx + 1 + i by omega,
            show t.irqIdx + (1 + i) = t.irqIdx + 1 + i by omega] at hh
        exact hh

theorem TP_Read_Coordinates_congr (cfg : Config) (s t : TPState)
    (hm : ∀ i, s.misoSeq (s.misoIdx + i) = t.misoSeq (t.misoIdx + i))
    (hi : ∀ i, s.irqSeq (s.irqIdx + i) = t.irqSeq (t.irqIdx + i)) :
    (TP_Read_Coordinates cfg s).1 = (TP_Read_Coordinates cfg t).1 ∧
    (TP_Read_Coordinates cfg s).2.1 = (TP_Read_Coordinates cfg t).2.1 := by
  have hm' : ∀ i, (TP_RC_prep s).misoSeq ((TP_RC_prep s).misoIdx + i) =
      (TP_RC_prep t).misoSeq ((TP_RC_prep t).misoIdx + i) := by
    intro i
    simp only [TP_RC_prep_eq]
    exact hm i
  have hi' : ∀ i, (TP_RC_prep s).irqSeq ((TP_RC_prep s).irqIdx + i) =
      (TP_RC_prep t).irqSeq ((TP_RC_prep t).irqIdx + i) := by
    intro i
    simp only [TP_RC_prep_eq]
    exact hi i
  obtain ⟨hL, hIrq⟩ := TP_RC_loop_congr cfg.CMD_RDY cfg.CMD_RDX
    cfg.NO_OF_POSITION_SAMPLES initRCLocals (TP_RC_prep s) (TP_RC_prep t) hm' hi'
  simp only [TP_Read_Coordinates, TP_RC_afterLoop]
  rw [hL]
  by_cases hc : (TP_RC_loop cfg.CMD_RDY cfg.CMD_RDX cfg.NO_OF_POSITION_SAMPLES
      initRCLocals (TP_RC_prep t)).1.counted_samples = cfg.NO_OF_POSITION_SAMPLES
  · rw [if_pos hc, if_pos hc]
    have hval : (readIRQ (wCS true (TP_RC_loop cfg.CMD_RDY cfg.CMD_RDX
        cfg.NO_OF_POSITION_SAMPLES initRCLocals (TP_RC_prep s)).2)).1 =
        (readIRQ (wCS true (TP_RC_loop cfg.CMD_RDY cfg.CMD_RDX
        cfg.NO_OF_POSITION_SAMPLES initRCLocals (TP_RC_prep t)).2)).1 := by
      simp only [readIRQ, wCS]
      exact hIrq
    by_cases hv : (readIRQ (wCS true (TP_RC_loop cfg.CMD_RDY cfg.CMD_RDX
        cfg.NO_OF_POSITION_SAMPLES initRCLocals (TP_RC_prep s)).2)).1 = true
    · rw [if_pos hv, if_pos (hval ▸ hv)]
      exact ⟨rfl, rfl⟩
    · rw [if_neg hv, if_neg (by rw [← hval]; exact hv)]
      exact ⟨rfl, rfl⟩
  · rw [if_neg hc, if_neg hc]
    exact ⟨rfl, rfl⟩

theorem TP_Read_Coordinates_advance (cfg : Config) (s : TPState) :
    ((TP_Read_Coordinates cfg s).2.2).misoSeq = s.misoSeq ∧
    ((TP_Read_Coordinates cfg s).2.2).irqSeq = s.irqSeq ∧
    (∃ j, ((TP_Read_Coordinates cfg s).2.2).misoIdx = s.misoIdx + 32 * j) ∧
    (∃ jr, ((TP_Read_Coordinates cfg s).2.2).irqIdx = s.irqIdx + jr) := by
  obtain ⟨j, jr, hj, hjr, h1, h2, h3, h4⟩ :=
    TP_RC_loop_advance cfg.CMD_RDY cfg.CMD_RDX cfg.NO_OF_POSITION_SAMPLES
      initRCLocals (TP_RC_prep s)
  have H1 : ((TP_RC_afterLoop cfg s).2).misoSeq = s.misoSeq := by
    simp only [TP_RC_afterLoop]
    rw [h1]
    simp [TP_RC_prep_eq]
  have H2 : ((TP_RC_afterLoop cfg s).2).irqSeq = s.irqSeq := by
    simp only [TP_RC_afterLoop]
    rw [h2]
    simp [TP_RC_prep_eq]
  have H3 : ((TP_RC_afterLoop cfg s).2).misoIdx = s.misoIdx + 32 * j := by
    simp only [TP_RC_afterLoop]
    rw [h3]
    simp [TP_RC_prep_eq]
  have H4 : ((TP_RC_afterLoop cfg s).2).irqIdx = s.irqIdx + jr := by
    simp only [TP_RC_afterLoop]
    rw [h4]
    simp [TP_RC_prep_eq]
  simp only [TP_Read_Coordinates]
  by_cases hc : (TP_RC_afterLoop cfg s).1.counted_samples = cfg.NO_OF_POSITION_SAMPLES
  · rw [if_pos hc]
    by_cases hv : (readIRQ (wCS true (TP_RC_afterLoop cfg s).2)).1 = true
    · rw [if_pos hv]
      refine ⟨?_, ?_, ⟨j, ?_⟩, ⟨jr + 1, ?_⟩⟩ <;>
        simp [readIRQ, wCS, H1, H2, H3, H4] <;> omega
    · rw [if_neg hv]
      refine ⟨?_, ?_, ⟨j, ?_⟩, ⟨jr + 1, ?_⟩⟩ <;>
        simp [readIRQ, wCS, H1, H2, H3, H4] <;> omega
  · rw [if_neg hc]
    refine ⟨?_, ?_, ⟨j, ?_⟩, ⟨jr, ?_⟩⟩ <;>
      simp [wCS, H1, H2, H3, H4]

theorem periodic_32 (f : Nat → Bool) (hper : ∀ i, f (i + 32) = f i) :
    ∀ (j n : Nat), f (n + 32 * j) = f n := by
  intro j
  induction j with
  | zero => intro n; simp
  | succ j ih =>
    intro n
    have h1 : n + 32 * (j + 1) = (n + 32 * j) + 32 := by ring
    rw [h1, hper (n + 32 * j)]
    exact ih n

theorem constStream_periodic (Rx Ry : Nat) : ∀ i,
    constStream Rx Ry (i + 32) = constStream Rx Ry i := by
  intro i
  unfold constStream
  have h1 : (i + 32) / 16 % 2 = i / 16 % 2 := by omega
  have h2 : (i + 32) % 16 = i % 16 := by omega
  rw [h1, h2]

theorem streamWord_eq_sum (f : Nat → Bool) : ∀ (i start : Nat),
    streamWord f start i =
      Finset.sum (Finset.range i)
        (fun j => if f (start + j) then 2 ^ (i - 1 - j) else 0) := by
  intro i
  induction i with
  | zero => intro start; simp [streamWord]
  | succ i ih =>
    intro start
    have hsum : Finset.sum (Finset.range i)
        (fun j => if f (start + 1 + j) then 2 ^ (i - 1 - j) else 0) =
        Finset.sum (Finset.range i)
        (fun j => if f (start + (j + 1)) then 2 ^ (i + 1 - 1 - (j + 1)) else 0) := by
      apply Finset.sum_congr rfl
      intro j hj
      rw [show start + 1 + j = start + (j + 1) by omega,
          show i - 1 - j = i + 1 - 1 - (j + 1) by omega]
    rw [Finset.sum_range_succ']
    simp only [streamWord]
    rw [ih (start + 1), hsum]
    simp [Nat.add_comm]

/-- C2: `TP_Read_Coordinates` returns `ok` iff the completed-sample count
equals the configured budget and the press line reads asserted (low) at the
validation check after the loop; otherwise it returns `noisy` and writes
`(0, 0)`, with no further outcome. -/
theorem claim_C2 (cfg : Config) (s : TPState) :
    ((TP_Read_Coordinates cfg s).2.1 = TPStatus.ok ↔
      ((TP_RC_afterLoop cfg s).1.counted_samples = cfg.NO_OF_POSITION_SAMPLES ∧
       ((TP_RC_afterLoop cfg s).2).irqSeq (((TP_RC_afterLoop cfg s).2).irqIdx) =
         false)) ∧
    ((TP_Read_Coordinates cfg s).2.1 ≠ TPStatus.ok →
      (TP_Read_Coordinates cfg s).2.1 = TPStatus.noisy ∧
      (TP_Read_Coordinates cfg s).1 = (0, 0)) := by
  simp only [TP_Read_Coordinates]
  by_cases hc : (TP_RC_afterLoop cfg s).1.counted_samples = cfg.NO_OF_POSITION_SAMPLES
  · rw [if_pos hc]
    by_cases hv : ((TP_RC_afterLoop cfg s).2).irqSeq (((TP_RC_afterLoop cfg s).2).irqIdx)
    · rw [if_pos (show (readIRQ (wCS true (TP_RC_afterLoop cfg s).2)).1 = true by
        simp [readIRQ, wCS, hv])]
      simp [hc, hv]
    · have hv0 : ((TP_RC_afterLoop cfg s).2).irqSeq
          (((TP_RC_afterLoop cfg s).2).irqIdx) = false := by simpa using hv
      rw [if_neg (show ¬((readIRQ (wCS true (TP_RC_afterLoop cfg s).2)).1 = true) by
        simp [readIRQ, wCS, hv0])]
      simp [hc, hv0]
  · rw [if_neg hc]
    simp [hc]

/-- C5: `TP_Read` assembles its 16-bit result MSB first — the `j`-th sampled
data-in bit contributes `2 ^ (15 - j)` — and consumes exactly 16 data-in
samples while ending with the clock low and no other state change. -/
theorem claim_C5 (s : TPState) :
    (TP_Read s).1 =
      Finset.sum (Finset.range 16)
        (fun j => if s.misoSeq (s.misoIdx + j) then 2 ^ (15 - j) else 0) ∧
    (TP_Read s).2 = { s with clk := false, clkHighs := s.clkHighs + 16,
                             misoIdx := s.misoIdx + 16 } := by
  rw [TP_Read_eq]
  constructor
  · show streamWord s.misoSeq s.misoIdx 16 = _
    exact streamWord_eq_sum s.misoSeq 16 s.misoIdx
  · rfl

/-- C8: `TP_Touchpad_Pressed` returns `TOUCHPAD_PRESSED` iff the IRQ line
reads logic low, and performs no write to the chip-select, clock or data-out
lines. -/
theorem claim_C8 (s : TPState) :
    ((TP_Touchpad_Pressed s).1 = TOUCHPAD_PRESSED ↔ s.irqSeq s.irqIdx = false) ∧
    ((TP_Touchpad_Pressed s).1 = TOUCHPAD_NOT_PRESSED ↔ s.irqSeq s.irqIdx = true) ∧
    ((TP_Touchpad_Pressed s).2).clk = s.clk ∧
    ((TP_Touchpad_Pressed s).2).mosi = s.mosi ∧
    ((TP_Touchpad_Pressed s).2).cs = s.cs ∧
    ((TP_Touchpad_Pressed s).2).clkHighs = s.clkHighs := by
  by_cases hb : s.irqSeq s.irqIdx <;>
    simp [TP_Touchpad_Pressed, readIRQ, hb, TOUCHPAD_PRESSED, TOUCHPAD_NOT_PRESSED]

/-- C9: bounded iteration counts — `TP_Write` drives exactly 8 clock pulses,
`TP_Read` exactly 16, and the sampling loop of `TP_Read_Coordinates` runs
at most `NO_OF_POSITION_SAMPLES` iterations (32 data-in bits per iteration)
for every possible input-pin sequence. -/
theorem claim_C9 :
    (∀ (v : Nat) (s : TPState), (TP_Write v s).clkHighs = s.clkHighs + 8) ∧
    (∀ s : TPState, ((TP_Read s).2).clkHighs = s.clkHighs + 16) ∧
    (∀ (cfg : Config) (s : TPState), ∃ j, j ≤ cfg.NO_OF_POSITION_SAMPLES ∧
      ((TP_RC_afterLoop cfg s).2).misoIdx = s.misoIdx + 32 * j) := by
  refine ⟨?_, ?_, ?_⟩
  · intro v s
    rw [TP_Write_eq]
  · intro s
    rw [TP_Read_eq]
  · intro cfg s
    obtain ⟨j, jr, hj, hjr, h1, h2, h3, h4⟩ :=
      TP_RC_loop_advance cfg.CMD_RDY cfg.CMD_RDX cfg.NO_OF_POSITION_SAMPLES
        initRCLocals (TP_RC_prep s)
    refine ⟨j, hj, ?_⟩
    simp only [TP_RC_afterLoop]
    rw [h3]
    simp [TP_RC_prep_eq]

/-- C7: the completed-sample count plus the remaining budget stays equal to
the configured sample count, so the count never exceeds it — at any loop
state whose count plus remaining fuel is the budget, and in particular at
loop exit of `TP_Read_Coordinates`. -/
theorem claim_C7 :
    (∀ (cy cx k : Nat) (l : RCLocals) (s : TPState),
      l.counted_samples + k < 4294967296 →
      (TP_RC_loop cy cx k l s).1.counted_samples ≤ l.counted_samples + k) ∧
    (∀ (cfg : Config) (s : TPState), cfg.NO_OF_POSITION_SAMPLES < 4294967296 →
      (TP_RC_afterLoop cfg s).1.counted_samples ≤ cfg.NO_OF_POSITION_SAMPLES) := by
  refine ⟨fun cy cx k l s h => TP_RC_loop_counted cy cx k l s h, ?_⟩
  intro cfg s hN
  have h := TP_RC_loop_counted cfg.CMD_RDY cfg.CMD_RDX cfg.NO_OF_POSITION_SAMPLES
    initRCLocals (TP_RC_prep s) (by simp [initRCLocals]; omega)
  simp only [initRCLocals] at h
  simp only [TP_RC_afterLoop]
  simpa using h

theorem claim_C7_witness :
    (TP_RC_loop 0 0 3 initRCLocals
        (mkState (fun _ => false) (fun _ => false))).1.counted_samples ≤
      initRCLocals.counted_samples + 3 ∧
    (TP_RC_afterLoop ⟨2, 1, 1, 0, 0, 1, 1, 0, 0⟩
        (mkState (fun _ => false) (fun _ => false))).1.counted_samples ≤
      (⟨2, 1, 1, 0, 0, 1, 1, 0, 0⟩ : Config).NO_OF_POSITION_SAMPLES :=
  ⟨claim_C7.1 0 0 3 initRCLocals (mkState (fun _ => false) (fun _ => false))
      (by decide),
   claim_C7.2 ⟨2, 1, 1, 0, 0, 1, 1, 0, 0⟩
      (mkState (fun _ => false) (fun _ => false)) (by decide)⟩

/-- C4: whenever the success branch of `TP_Read_Coordinates` is reached with
a configured sample count of at least 1, the completed-sample count equals
that sample count and is nonzero, so the averaging divisions are not by
zero; and the precondition is necessary: with sample count 0 and the press
line asserted, the success branch is reached with a completed count of 0,
so the averaging step divides by zero. -/
theorem claim_C4 :
    (∀ (cfg : Config) (s : TPState), 1 ≤ cfg.NO_OF_POSITION_SAMPLES →
      (TP_Read_Coordinates cfg s).2.1 = TPStatus.ok →
      (TP_RC_afterLoop cfg s).1.counted_samples = cfg.NO_OF_POSITION_SAMPLES ∧
      (TP_RC_afterLoop cfg s).1.counted_samples ≠ 0) ∧
    ((TP_Read_Coordinates ⟨0, 1, 1, 0, 0, 1, 1, 0, 0⟩
        (mkState (fun _ => false) (fun _ => false))).2.1 = TPStatus.ok ∧
     (TP_RC_afterLoop ⟨0, 1, 1, 0, 0, 1, 1, 0, 0⟩
        (mkState (fun _ => false) (fun _ => false))).1.counted_samples = 0) := by
  constructor
  · intro cfg s hN hok
    by_cases hc : (TP_RC_afterLoop cfg s).1.counted_samples = cfg.NO_OF_POSITION_SAMPLES
    · exact ⟨hc, by omega⟩
    · exfalso
      simp only [TP_Read_Coordinates] at hok
      rw [if_neg hc] at hok
      simp at hok
  · constructor <;> decide

theorem claim_C4_witness :
    (TP_RC_afterLoop ⟨1, 1, 1, 0, 0, 1, 1, 0, 0⟩
        (mkState (constStream 7 9) (fun _ => false))).1.counted_samples =
      (⟨1, 1, 1, 0, 0, 1, 1, 0, 0⟩ : Config).NO_OF_POSITION_SAMPLES ∧
    (TP_RC_afterLoop ⟨1, 1, 1, 0, 0, 1, 1, 0, 0⟩
        (mkState (constStream 7 9) (fun _ => false))).1.counted_samples ≠ 0 :=
  claim_C4.1 ⟨1, 1, 1, 0, 0, 1, 1, 0, 0⟩
    (mkState (constStream 7 9) (fun _ => false)) (by decide) (by decide)

set_option maxRecDepth 100000 in
/-- C6: the per-axis averaging divides the accumulated sum by the completed
count with truncation: Y samples 100 and 101 with count 2 sum to 201 and
average to 100, not to a rounded 101. -/
theorem claim_C6 :
    (TP_RC_afterLoop ⟨2, 1, 1, 0, 0, 1, 1, 0, 0⟩
        (mkState misoC6 (fun _ => false))).1.calculating_y = 201 ∧
    (TP_RC_afterLoop ⟨2, 1, 1, 0, 0, 1, 1, 0, 0⟩
        (mkState misoC6 (fun _ => false))).1.counted_samples = 2 ∧
    (TP_RC_afterLoop ⟨2, 1, 1, 0, 0, 1, 1, 0, 0⟩
        (mkState misoC6 (fun _ => false))).1.calculating_y /
      (TP_RC_afterLoop ⟨2, 1, 1, 0, 0, 1, 1, 0, 0⟩
        (mkState misoC6 (fun _ => false))).1.counted_samples = 100 ∧
    (TP_RC_afterLoop ⟨2, 1, 1, 0, 0, 1, 1, 0, 0⟩
        (mkState misoC6 (fun _ => false))).1.calculating_y /
      (TP_RC_afterLoop ⟨2, 1, 1, 0, 0, 1, 1, 0, 0⟩
        (mkState misoC6 (fun _ => false))).1.counted_samples ≠ 101 := by
  decide

theorem avg_lt_aux (c cnt : Nat) (h32 : c < 4294967296)
    (hb : cnt < 65536 → c ≤ cnt * 65535) : c / cnt < 65536 := by
  rcases Nat.eq_zero_or_pos cnt with h0 | hpos
  · subst h0
    simp
  · apply (Nat.div_lt_iff_lt_mul hpos).2
    rcases Nat.lt_or_ge cnt 65536 with hlt | hge
    · calc c ≤ cnt * 65535 := hb hlt
        _ < cnt * 65536 := by
          exact mul_lt_mul_of_pos_left (by norm_num) hpos
        _ = 65536 * cnt := Nat.mul_comm _ _
  
    · have h1 : (65536 : Nat) * 65536 ≤ 65536 * cnt := Nat.mul_le_mul_left 65536 hge
      omega

theorem TP_RC_avg_lt (cfg : Config) (s : TPState)
    (hN : cfg.NO_OF_POSITION_SAMPLES < 4294967296) :
    (TP_RC_afterLoop cfg s).1.calculating_x /
      (TP_RC_afterLoop cfg s).1.counted_samples < 65536 ∧
    (TP_RC_afterLoop cfg s).1.calculating_y /
      (TP_RC_afterLoop cfg s).1.counted_samples < 65536 := by
  have hpkg := TP_RC_loop_calc_bound cfg.CMD_RDY cfg.CMD_RDX
    cfg.NO_OF_POSITION_SAMPLES initRCLocals (TP_RC_prep s)
    (by simp only [initRCLocals]; omega)
    (by intro _; simp [initRCLocals])
    (by simp [initRCLocals])
    (by simp [initRCLocals])
  obtain ⟨hinv, hx, hy⟩ := hpkg
  constructor
  · exact avg_lt_aux _ _ hx (fun h => (hinv h).1)
  · exact avg_lt_aux _ _ hy (fun h => (hinv h).2)

theorem TP_negate16_eq (a : Nat) (h : a < 65536) :
    TP_negate16 a = (65536 - a) % 65536 := by
  unfold TP_negate16
  rw [Nat.mod_eq_of_lt h]
  omega

/-- C3: on the success path of `TP_Read_Coordinates` each averaged raw
value `a` is negated by a `* -1` with 16-bit wraparound, so the value fed
into the subsequent division and linear transform is `(2^16 - a) % 2^16`. -/
theorem claim_C3 (cfg : Config) (s : TPState)
    (hN : cfg.NO_OF_POSITION_SAMPLES < 4294967296)
    (hok : (TP_Read_Coordinates cfg s).2.1 = TPStatus.ok) :
    (TP_Read_Coordinates cfg s).1.1 =
      TP_transform_x cfg
        ((65536 - (TP_RC_afterLoop cfg s).1.calculating_x /
            (TP_RC_afterLoop cfg s).1.counted_samples) % 65536) ∧
    (TP_Read_Coordinates cfg s).1.2 =
      TP_transform_y cfg
        ((65536 - (TP_RC_afterLoop cfg s).1.calculating_y /
            (TP_RC_afterLoop cfg s).1.counted_samples) % 65536) := by
  obtain ⟨hax, hay⟩ := TP_RC_avg_lt cfg s hN
  by_cases hc : (TP_RC_afterLoop cfg s).1.counted_samples = cfg.NO_OF_POSITION_SAMPLES
  · simp only [TP_Read_Coordinates] at hok ⊢
    rw [if_pos hc] at hok ⊢
    by_cases hv : (readIRQ (wCS true (TP_RC_afterLoop cfg s).2)).1 = true
    · rw [if_pos hv] at hok
      simp at hok
    · rw [if_neg hv]
      constructor
      · show TP_transform_x cfg (TP_negate16 _) = _
        rw [TP_negate16_eq _ hax]
      · show TP_transform_y cfg (TP_negate16 _) = _
        rw [TP_negate16_eq _ hay]
  · exfalso
    simp only [TP_Read_Coordinates] at hok
    rw [if_neg hc] at hok
    simp at hok

theorem claim_C3_witness :
    (TP_Read_Coordinates ⟨1, 2, 2, 3, 3, 2, 2, 0, 0⟩
        (mkState (constStream 300 500) (fun _ => false))).1.1 =
      TP_transform_x ⟨1, 2, 2, 3, 3, 2, 2, 0, 0⟩
        ((65536 - (TP_RC_afterLoop ⟨1, 2, 2, 3, 3, 2, 2, 0, 0⟩
            (mkState (constStream 300 500) (fun _ => false))).1.calculating_x /
          (TP_RC_afterLoop ⟨1, 2, 2, 3, 3, 2, 2, 0, 0⟩
            (mkState (constStream 300 500)
              (fun _ => false))).1.counted_samples) % 65536) ∧
    (TP_Read_Coordinates ⟨1, 2, 2, 3, 3, 2, 2, 0, 0⟩
        (mkState (constStream 300 500) (fun _ => false))).1.2 =
      TP_transform_y ⟨1, 2, 2, 3, 3, 2, 2, 0, 0⟩
        ((65536 - (TP_RC_afterLoop ⟨1, 2, 2, 3, 3, 2, 2, 0, 0⟩
            (mkState (constStream 300 500) (fun _ => false))).1.calculating_y /
          (TP_RC_afterLoop ⟨1, 2, 2, 3, 3, 2, 2, 0, 0⟩
            (mkState (constStream 300 500)
              (fun _ => false))).1.counted_samples) % 65536) :=
  claim_C3 ⟨1, 2, 2, 3, 3, 2, 2, 0, 0⟩
    (mkState (constStream 300 500) (fun _ => false)) (by decide) (by decide)

/-- C1 (amended): for every configuration with `NO_OF_POSITION_SAMPLES ≥ 1`
(a uint32), a controller that holds the press line low and answers every
read pair with constant raw words `Rx`, `Ry` (whose accumulated sums fit
the 32-bit accumulators) makes `TP_Read_Coordinates` return `ok` with
`x = ((240 - n_x / X_TRANSLATION) - X_OFFSET) * X_MAGNITUDE` and
`y = (n_y / Y_TRANSLATION - Y_OFFSET) * Y_MAGNITUDE`, both truncated to 16
bits, where `n_x = (2^16 - Rx) % 2^16` and `n_y = (2^16 - Ry) % 2^16` are
the 16-bit negations of the supplied raw values — not the raw values
themselves as the original claim stated. -/
theorem claim_C1 (cfg : Config) (Rx Ry : Nat) (s : TPState)
    (hN : 1 ≤ cfg.NO_OF_POSITION_SAMPLES)
    (hN32 : cfg.NO_OF_POSITION_SAMPLES < 4294967296)
    (hRx : Rx < 65536) (hRy : Ry < 65536)
    (hsx : cfg.NO_OF_POSITION_SAMPLES * Rx < 4294967296)
    (hsy : cfg.NO_OF_POSITION_SAMPLES * Ry < 4294967296)
    (hm : s.misoSeq = constStream Rx Ry)
    (hi : s.irqSeq = fun _ => false)
    (hidx : s.misoIdx % 32 = 0) :
    (TP_Read_Coordinates cfg s).2.1 = TPStatus.ok ∧
    (TP_Read_Coordinates cfg s).1.1 = TP_transform_x cfg ((65536 - Rx) % 65536) ∧
    (TP_Read_Coordinates cfg s).1.2 = TP_transform_y cfg ((65536 - Ry) % 65536) := by
  have hconst := TP_RC_loop_const cfg.CMD_RDY cfg.CMD_RDX Rx Ry hRx hRy
    cfg.NO_OF_POSITION_SAMPLES initRCLocals (TP_RC_prep s)
    (by simp [TP_RC_prep_eq, hm]) (by simp [TP_RC_prep_eq, hi])
    (by simp only [TP_RC_prep_eq]; omega) (by simp [initRCLocals])
    (by simp [initRCLocals]) (by simp [initRCLocals]) (by simp [initRCLocals])
    (by simp [initRCLocals])
  have hcnt : (TP_RC_afterLoop cfg s).1.counted_samples =
      cfg.NO_OF_POSITION_SAMPLES := by
    simp only [TP_RC_afterLoop]
    rw [hconst]
    simp only [initRCLocals]
    omega
  have hcx : (TP_RC_afterLoop cfg s).1.calculating_x =
      cfg.NO_OF_POSITION_SAMPLES * Rx := by
    simp only [TP_RC_afterLoop]
    rw [hconst]
    simp only [initRCLocals]
    omega
  have hcy : (TP_RC_afterLoop cfg s).1.calculating_y =
      cfg.NO_OF_POSITION_SAMPLES * Ry := by
    simp only [TP_RC_afterLoop]
    rw [hconst]
    simp only [initRCLocals]
    omega
  obtain ⟨j, jr, hj, hjr, a1, a2, a3, a4⟩ := TP_RC_loop_advance cfg.CMD_RDY
    cfg.CMD_RDX cfg.NO_OF_POSITION_SAMPLES initRCLocals (TP_RC_prep s)
  have hval : (readIRQ (wCS true (TP_RC_afterLoop cfg s).2)).1 = false := by
    simp only [readIRQ, wCS, TP_RC_afterLoop]
    rw [a2]
    simp [TP_RC_prep_eq, hi]
  have hvneg : ¬((readIRQ (wCS true (TP_RC_afterLoop cfg s).2)).1 = true) := by
    simp [hval]
  have hdx : (TP_RC_afterLoop cfg s).1.calculating_x /
      (TP_RC_afterLoop cfg s).1.counted_samples = Rx := by
    rw [hcx, hcnt]
    exact Nat.mul_div_cancel_left Rx (by omega)
  have hdy : (TP_RC_afterLoop cfg s).1.calculating_y /
      (TP_RC_afterLoop cfg s).1.counted_samples = Ry := by
    rw [hcy, hcnt]
    exact Nat.mul_div_cancel_left Ry (by omega)
  refine ⟨?_, ?_, ?_⟩
  · simp only [TP_Read_Coordinates]
    rw [if_pos hcnt, if_neg hvneg]
  · simp only [TP_Read_Coordinates]
    rw [if_pos hcnt, if_neg hvneg]
    show TP_transform_x cfg (TP_negate16 _) = _
    rw [hdx, TP_negate16_eq Rx hRx]
  · simp only [TP_Read_Coordinates]
    rw [if_pos hcnt, if_neg hvneg]
    show TP_transform_y cfg (TP_negate16 _) = _
    rw [hdy, TP_negate16_eq Ry hRy]

set_option maxRecDepth 100000 in
/-- C1 (counterexample to the original claim): with calibration constants
`X_TRANSLATION = X_MAGNITUDE = 1`, `X_OFFSET = 0`, one sample and a
controller that constantly answers `Rx = 16`, `Ry = 32` with the press line
held low, `TP_Read_Coordinates` succeeds but its x coordinate is not
`((240 - Rx / X_TRANSLATION) - X_OFFSET) * X_MAGNITUDE = 224` (it is 256,
because the raw value is negated modulo 2^16 before the transform). -/
theorem claim_C1_counterexample :
    (TP_Read_Coordinates ⟨1, 1, 1, 0, 0, 1, 1, 0, 0⟩
        (mkState (constStream 16 32) (fun _ => false))).2.1 = TPStatus.ok ∧
    (TP_Read_Coordinates ⟨1, 1, 1, 0, 0, 1, 1, 0, 0⟩
        (mkState (constStream 16 32) (fun _ => false))).1.1 ≠
      ((240 - 16 / 1) - 0) * 1 := by
  decide

theorem claim_C1_witness :
    (TP_Read_Coordinates ⟨2, 1, 1, 0, 0, 1, 1, 0, 0⟩
        (mkState (constStream 16 32) (fun _ => false))).2.1 = TPStatus.ok ∧
    (TP_Read_Coordinates ⟨2, 1, 1, 0, 0, 1, 1, 0, 0⟩
        (mkState (constStream 16 32) (fun _ => false))).1.1 =
      TP_transform_x ⟨2, 1, 1, 0, 0, 1, 1, 0, 0⟩ ((65536 - 16) % 65536) ∧
    (TP_Read_Coordinates ⟨2, 1, 1, 0, 0, 1, 1, 0, 0⟩
        (mkState (constStream 16 32) (fun _ => false))).1.2 =
      TP_transform_y ⟨2, 1, 1, 0, 0, 1, 1, 0, 0⟩ ((65536 - 32) % 65536) :=
  claim_C1 ⟨2, 1, 1, 0, 0, 1, 1, 0, 0⟩ 16 32
    (mkState (constStream 16 32) (fun _ => false))
    (by decide) (by decide) (by decide) (by decide) (by decide) (by decide)
    rfl rfl (by decide)

/-- C10: `TP_Read_Coordinates` is deterministic in the simulated controller:
if the data-in stream is 32-periodic (the controller gives the same
responses on every read pair) and the press line is constant, a second
consecutive call returns the same status and the same coordinates as the
first. -/
theorem claim_C10 (cfg : Config) (s : TPState)
    (hper : ∀ i, s.misoSeq (i + 32) = s.misoSeq i)
    (hconst : ∀ i j, s.irqSeq i = s.irqSeq j) :
    (TP_Read_Coordinates cfg ((TP_Read_Coordinates cfg s).2.2)).2.1 =
      (TP_Read_Coordinates cfg s).2.1 ∧
    (TP_Read_Coordinates cfg ((TP_Read_Coordinates cfg s).2.2)).1 =
      (TP_Read_Coordinates cfg s).1 := by
  obtain ⟨hms, his, ⟨j, hmi⟩, ⟨jr, hii⟩⟩ := TP_Read_Coordinates_advance cfg s
  have hcongr := TP_Read_Coordinates_congr cfg ((TP_Read_Coordinates cfg s).2.2) s
    ?_ ?_
  · exact ⟨hcongr.2, hcongr.1⟩
  · intro i
    rw [hms, hmi]
    rw [show s.misoIdx + 32 * j + i = (s.misoIdx + i) + 32 * j by omega]
    exact periodic_32 s.misoSeq hper j (s.misoIdx + i)
  · intro i
    rw [his]
    exact hconst _ _

theorem claim_C10_witness :
    (TP_Read_Coordinates ⟨1, 1, 1, 0, 0, 1, 1, 0, 0⟩
        ((TP_Read_Coordinates ⟨1, 1, 1, 0, 0, 1, 1, 0, 0⟩
          (mkState (constStream 16 32) (fun _ => false))).2.2)).2.1 =
      (TP_Read_Coordinates ⟨1, 1, 1, 0, 0, 1, 1, 0, 0⟩
        (mkState (constStream 16 32) (fun _ => false))).2.1 ∧
    (TP_Read_Coordinates ⟨1, 1, 1, 0, 0, 1, 1, 0, 0⟩
        ((TP_Read_Coordinates ⟨1, 1, 1, 0, 0, 1, 1, 0, 0⟩
          (mkState (constStream 16 32) (fun _ => false))).2.2)).1 =
      (TP_Read_Coordinates ⟨1, 1, 1, 0, 0, 1, 1, 0, 0⟩
        (mkState (constStream 16 32) (fun _ => false))).1 :=
  claim_C10 ⟨1, 1, 1, 0, 0, 1, 1, 0, 0⟩
    (mkState (constStream 16 32) (fun _ => false))
    (fun i => constStream_periodic 16 32 i) (fun i j => rfl)
